import Mathlib

/-!
Verification development for the FRC shooter physics simulation core
(`simulation.py`): field/physics constants, the fixed-window trajectory
integrator (ideal and drag-affected tracks with crossing-point recording),
the 3D coordinate projector, the event-stopping simulators
(`simulate_to_distance`, `find_impact_point`), the optimal-angle sweep and
the impact-zone (dispersion) estimator.

Real arithmetic is modelled by `ℝ`. Python `while t < max_time` loops with
`t += sim_dt` are modelled by structural recursion on a fuel counter chosen
large enough (1501) that the time guard, not the fuel, always terminates the
loop: the guard `t < 3` with `t = k * 0.002` fails for the first time at
`k = 1500`, matching the 1500 iterations of the source loop. `find_impact_point`
is additionally instrumented with an executed-step counter and a
"stopped because speed was zero" flag so that the stopping reason is
observable; the returned option value is bitwise the source's return value.
-/

namespace FrcShooter

noncomputable section

/-- Field length (X-axis) in meters. -/
def L_x : ℝ := 158.611 * 2.54 / 100

/-- Field width (Y-axis) in meters. -/
def L_y : ℝ := 318.188 * 2.54 / 100

/-- Hub width in meters. -/
def W_H : ℝ := 60 * 2.54 / 100

/-- Hub base height in meters. -/
def H_H : ℝ := 60 * 2.54 / 100

/-- Hub upper rim height in meters. -/
def H_H2 : ℝ := 13.5 * 2.54 / 100

/-- Field wall height in meters. -/
def H_W : ℝ := 20 * 2.54 / 100

/-- Hub inner ring radius in meters. -/
def R_1 : ℝ := 25 / 2 * 2.54 / 100

/-- Hub outer ring radius in meters. -/
def R_2 : ℝ := 45 / 2 * 2.54 / 100

/-- Target zone height tolerance in meters. -/
def H_Shoot : ℝ := 0.1

/-- Flywheel radius in meters. -/
def R_w : ℝ := 2 * 2.54 / 100

/-- Ball radius in meters. -/
def R_b : ℝ := 0.15 / 2

/-- Gravitational acceleration. -/
def g : ℝ := 9.81

/-- Ball mass in kg. -/
def m_ball : ℝ := 0.225

/-- Ball cross-sectional area. -/
def A : ℝ := Real.pi * R_b ^ 2

/-- Air density. -/
def p : ℝ := 1.2

/-- Simulation duration in seconds. -/
def duration : ℝ := 2

/-- Number of simulation steps of the display integrator. -/
def n_steps : ℕ := 500

/-- Time step used by the drag-affected display integrator
(`dt = duration / n_steps`). -/
def dt : ℝ := duration / (n_steps : ℝ)

/-- `np.linspace a b n`: `n` evenly spaced values from `a` to `b` inclusive,
spacing `(b - a) / (n - 1)`. -/
def linspace (a b : ℝ) (n : ℕ) : List ℝ :=
  (List.range n).map fun (i : ℕ) => a + (b - a) * (i : ℝ) / ((n : ℝ) - 1)

/-- The module-level `time = np.linspace(0, duration, n_steps)` array. -/
def timeList : List ℝ := linspace 0 duration n_steps

/-- Drag deceleration magnitude `F_D / m_ball`. -/
def f_drag (v C_D : ℝ) : ℝ := 0.5 * C_D * p * A * v ^ 2 / m_ball

/-- Lift (Magnus) acceleration magnitude `F_L / m_ball`. -/
def f_lift (v C_L wb : ℝ) : ℝ := 0.5 * p * A * R_b * wb * v * C_L / m_ball

/-- `math.atan2 y x`, the angle of the point `(x, y)`;
`Complex.arg` has exactly this branch behaviour (and `atan2 0 0 = 0`). -/
def atan2 (y x : ℝ) : ℝ := Complex.arg ⟨x, y⟩

/-- The parameter record passed into every computation. -/
structure ShooterParams where
  P_x : ℝ
  P_y : ℝ
  O_r : ℝ
  w : ℝ
  O_b : ℝ
  Z_sh : ℝ
  C_D : ℝ
  C_L : ℝ
  C_roll : ℝ

/-- Flywheel surface speed `V_s = (w / 60) * 2π * R_w`. -/
def V_s (ps : ShooterParams) : ℝ := ps.w / 60 * (2 * Real.pi) * R_w

/-- Initial ball speed `V_b0 = V_s * C_roll`. -/
def V_b0 (ps : ShooterParams) : ℝ := V_s ps * ps.C_roll

/-- Residual ball spin rate `w_b = V_s / R_b * (1 - C_roll)`. -/
def w_b (ps : ShooterParams) : ℝ := V_s ps / R_b * (1 - ps.C_roll)

/-- Initial horizontal plane velocity `V_u0 = V_b0 * cos O_b`. -/
def V_u0 (ps : ShooterParams) : ℝ := V_b0 ps * Real.cos ps.O_b

/-- Initial vertical plane velocity `V_n0 = V_b0 * sin O_b`. -/
def V_n0 (ps : ShooterParams) : ℝ := V_b0 ps * Real.sin ps.O_b

/-- The target height band `H_H + H_H2 + H_Shoot` used by the crossing
detectors (`target_height` in the source). -/
def targetH : ℝ := H_H + H_H2 + H_Shoot

/-- Ideal (closed-form) horizontal position `iU_val = V_u0 * t`. -/
def idealU (ps : ShooterParams) (t : ℝ) : ℝ := V_u0 ps * t

/-- Ideal (closed-form) height `iN_val = Z_sh + V_n0 * t - 0.5 * g * t²`,
clamped to zero from below. -/
def idealN (ps : ShooterParams) (t : ℝ) : ℝ :=
  let v := ps.Z_sh + V_n0 ps * t - 0.5 * g * t ^ 2
  if v < 0 then 0 else v

/-- The ideal track: one `(U, N, t)` sample per entry of `timeList`. -/
def idealSamples (ps : ShooterParams) : List (ℝ × ℝ × ℝ) :=
  timeList.map fun t => (idealU ps t, idealN ps t, t)

/-- The per-sample crossing test `abs (N - (H_H + H_H2 + H_Shoot)) < 0.01`. -/
def hit (s : ℝ × ℝ × ℝ) : Bool := decide (|s.2.1 - targetH| < 0.01)

/-- The crossing-point recording performed inside the sample loops: the
candidate is overwritten by every sample that passes the tolerance test. -/
def recordCrossing (l : List (ℝ × ℝ × ℝ)) : Option (ℝ × ℝ × ℝ) :=
  l.foldl (fun acc s => if hit s then some s else acc) none

/-- State of the drag-affected display integrator. -/
structure FrState where
  V_u : ℝ
  V_n : ℝ
  U : ℝ
  N : ℝ

/-- Instantaneous speed `V = sqrt (V_u² + V_n²)`. -/
def speed2 (vu vn : ℝ) : ℝ := Real.sqrt (vu ^ 2 + vn ^ 2)

/-- One iteration of the drag-affected display loop: drag/lift/heading are
zero when the speed is zero, forward-Euler velocity and position updates with
step `dt`, and the stored/kept height is clamped to zero from below. -/
def frStep (ps : ShooterParams) (st : FrState) : FrState :=
  let V := speed2 st.V_u st.V_n
  let adl : ℝ × ℝ × ℝ :=
    if V = 0 then (0, 0, 0)
    else (-(f_drag V ps.C_D), f_lift V ps.C_L (w_b ps), atan2 st.V_n st.V_u)
  let V_u1 := st.V_u + dt * (Real.cos adl.2.2 * adl.1 + Real.cos (adl.2.2 + Real.pi / 2) * adl.2.1)
  let V_n1 := st.V_n + dt * (Real.sin adl.2.2 * adl.1 + Real.sin (adl.2.2 + Real.pi / 2) * adl.2.1 - g)
  let U1 := st.U + V_u1 * dt
  let N1 := st.N + V_n1 * dt
  { V_u := V_u1, V_n := V_n1, U := U1, N := if N1 < 0 then 0 else N1 }

/-- Launch state of the drag-affected display loop. -/
def frInit (ps : ShooterParams) : FrState :=
  { V_u := V_u0 ps, V_n := V_n0 ps, U := 0, N := ps.Z_sh }

/-- The drag-affected display loop: for each sample time, update the state
and store `(U, N, t)`. -/
def frLoop (ps : ShooterParams) : FrState → List ℝ → List (ℝ × ℝ × ℝ)
  | _, [] => []
  | st, t :: ts =>
    let st1 := frStep ps st
    (st1.U, st1.N, t) :: frLoop ps st1 ts

/-- The drag-affected track produced by `calculate_simulation`. -/
def frSamples (ps : ShooterParams) : List (ℝ × ℝ × ℝ) :=
  frLoop ps (frInit ps) timeList

/-- A 2D trajectory as parallel value lists `[U_vals, N_vals, time]`. -/
structure Pts where
  U : List ℝ
  N : List ℝ
  t : List ℝ

/-- A 3D trajectory as parallel value lists `[X_vals, Y_vals, Z_vals, time]`. -/
structure Pts3 where
  X : List ℝ
  Y : List ℝ
  Z : List ℝ
  t : List ℝ

/-- `calculate_XYZ_fromPoints`: elementwise `X = P_x + U cos O_r`,
`Y = P_y + U sin O_r`, `Z = N`; the time list is passed through unchanged. -/
def calculate_XYZ_fromPoints (pts : Pts) (P_x P_y O_r : ℝ) : Pts3 :=
  let UN := pts.U.zip pts.N
  { X := UN.map fun q => P_x + q.1 * Real.cos O_r
    Y := UN.map fun q => P_y + q.1 * Real.sin O_r
    Z := UN.map fun q => q.2
    t := pts.t }

/-- The tuple returned by `calculate_simulation`. -/
structure SimResult where
  iPoints : Pts
  ideal_point : Option (ℝ × ℝ × ℝ)
  frPoints : Pts
  frIdealPoint : Option (ℝ × ℝ × ℝ)
  iPoints_xyz : Pts3
  frPoints_xyz : Pts3

/-- `calculate_simulation`: ideal and drag-affected tracks over the fixed
sample times, with their crossing points and 3D projections. -/
def calculate_simulation (ps : ShooterParams) : SimResult :=
  let iS := idealSamples ps
  let fS := frSamples ps
  let iP : Pts := { U := iS.map (·.1), N := iS.map (·.2.1), t := timeList }
  let fP : Pts := { U := fS.map (·.1), N := fS.map (·.2.1), t := timeList }
  { iPoints := iP
    ideal_point := recordCrossing iS
    frPoints := fP
    frIdealPoint := recordCrossing fS
    iPoints_xyz := calculate_XYZ_fromPoints iP ps.P_x ps.P_y ps.O_r
    frPoints_xyz := calculate_XYZ_fromPoints fP ps.P_x ps.P_y ps.O_r }

/-- Fine time step of the event-stopping simulators. -/
def sim_dt : ℝ := 0.002

/-- Simulated-time budget of the event-stopping simulators. -/
def max_time : ℝ := 3.0

/-- Fuel bound for the event loops: the guard `t < 3` with `t = k * 0.002`
allows exactly 1500 iterations, so 1501 unfoldings always suffice. -/
def stdFuel : ℕ := 1501

/-- State of the event-stopping simulators. -/
structure EvState where
  V_u : ℝ
  V_n : ℝ
  U : ℝ
  N : ℝ
  t : ℝ

/-- The dictionary returned by `simulate_to_distance`. -/
structure DistResult where
  height : ℝ
  velocity : ℝ
  time : ℝ
  V_u : ℝ
  V_n : ℝ

/-- One forward-Euler update of the event-stopping simulators (step `sim_dt`);
only reached when the speed is nonzero. -/
def evStep (C_D C_L wb : ℝ) (st : EvState) : EvState :=
  let V := speed2 st.V_u st.V_n
  let a_drag := -(f_drag V C_D)
  let a_lift := f_lift V C_L wb
  let θ := atan2 st.V_n st.V_u
  let V_u1 := st.V_u + sim_dt * (Real.cos θ * a_drag + Real.cos (θ + Real.pi / 2) * a_lift)
  let V_n1 := st.V_n + sim_dt * (Real.sin θ * a_drag + Real.sin (θ + Real.pi / 2) * a_lift - g)
  { V_u := V_u1, V_n := V_n1, U := st.U + V_u1 * sim_dt, N := st.N + V_n1 * sim_dt,
    t := st.t + sim_dt }

/-- The `simulate_to_distance` loop: while `t < max_time`, break with `none`
on zero speed, update, return the state when the target distance is reached
(checked before the ground check), `none` on ground contact. -/
def stdLoop (C_D C_L wb target_distance : ℝ) : ℕ → EvState → Option DistResult
  | 0, _ => none
  | fuel + 1, st =>
    if st.t < max_time then
      let V := speed2 st.V_u st.V_n
      if V = 0 then none
      else
        let st1 := evStep C_D C_L wb st
        if target_distance ≤ st1.U then
          some { height := st1.N, velocity := V, time := st1.t, V_u := st1.V_u, V_n := st1.V_n }
        else if st1.N < 0 then none
        else stdLoop C_D C_L wb target_distance fuel st1
    else none

/-- Initial state of the event-stopping simulators. -/
def evInit (ps : ShooterParams) : EvState :=
  { V_u := V_b0 ps * Real.cos ps.O_b, V_n := V_b0 ps * Real.sin ps.O_b,
    U := 0, N := ps.Z_sh, t := 0 }

/-- `simulate_to_distance`. -/
def simulate_to_distance (ps : ShooterParams) (target_distance : ℝ) : Option DistResult :=
  stdLoop ps.C_D ps.C_L (w_b ps) target_distance stdFuel (evInit ps)

/-- Variant of `evStep` that follows the spec wording of claim C4: at zero
speed the drag/lift contributions and the heading are defined as zero for the
step and the computation proceeds. -/
def evStepZeroGuard (C_D C_L wb : ℝ) (st : EvState) : EvState :=
  let V := speed2 st.V_u st.V_n
  let adl : ℝ × ℝ × ℝ :=
    if V = 0 then (0, 0, 0)
    else (-(f_drag V C_D), f_lift V C_L wb, atan2 st.V_n st.V_u)
  let V_u1 := st.V_u + sim_dt * (Real.cos adl.2.2 * adl.1 + Real.cos (adl.2.2 + Real.pi / 2) * adl.2.1)
  let V_n1 := st.V_n + sim_dt * (Real.sin adl.2.2 * adl.1 + Real.sin (adl.2.2 + Real.pi / 2) * adl.2.1 - g)
  { V_u := V_u1, V_n := V_n1, U := st.U + V_u1 * sim_dt, N := st.N + V_n1 * sim_dt,
    t := st.t + sim_dt }

/-- The `simulate_to_distance` loop as claim C4 describes it (zero-speed steps
proceed with zero contributions instead of exiting the loop); compared against
`stdLoop` to settle the claim. -/
def stdLoopClaimed (C_D C_L wb target_distance : ℝ) : ℕ → EvState → Option DistResult
  | 0, _ => none
  | fuel + 1, st =>
    if st.t < max_time then
      let V := speed2 st.V_u st.V_n
      let st1 := evStepZeroGuard C_D C_L wb st
      if target_distance ≤ st1.U then
        some { height := st1.N, velocity := V, time := st1.t, V_u := st1.V_u, V_n := st1.V_n }
      else if st1.N < 0 then none
      else stdLoopClaimed C_D C_L wb target_distance fuel st1
    else none

/-- `simulate_to_distance` as claim C4 describes it. -/
def simulate_to_distance_claimed (ps : ShooterParams) (target_distance : ℝ) : Option DistResult :=
  stdLoopClaimed ps.C_D ps.C_L (w_b ps) target_distance stdFuel (evInit ps)

/-- The dictionary returned by `find_impact_point`. -/
structure ImpactResult where
  U : ℝ
  N : ℝ
  time : ℝ

/-- State of the `find_impact_point` loop. The source also keeps `prev_U`,
`prev_N`; each iteration sets them to the pre-update `U`, `N`, so here they
are simply `st.U`, `st.N` at the points of use. `count` (executed updates)
is instrumentation, absent from the source. -/
structure FipState where
  V_u : ℝ
  V_n : ℝ
  U : ℝ
  N : ℝ
  t : ℝ
  passed_peak : Bool
  count : ℕ

/-- One update of the `find_impact_point` loop (only reached at nonzero
speed): forward-Euler velocity/position updates with step `sim_dt`, apex
tracking (the vertical velocity tested is the post-update one, as in the
source), and the instrumentation counter incremented. -/
def fipStep (C_D C_L wb : ℝ) (st : FipState) : FipState :=
  let V := speed2 st.V_u st.V_n
  let a_drag := -(f_drag V C_D)
  let a_lift := f_lift V C_L wb
  let θ := atan2 st.V_n st.V_u
  let V_u1 := st.V_u + sim_dt * (Real.cos θ * a_drag + Real.cos (θ + Real.pi / 2) * a_lift)
  let V_n1 := st.V_n + sim_dt * (Real.sin θ * a_drag + Real.sin (θ + Real.pi / 2) * a_lift - g)
  { V_u := V_u1, V_n := V_n1, U := st.U + V_u1 * sim_dt, N := st.N + V_n1 * sim_dt,
    t := st.t + sim_dt, passed_peak := if V_n1 < 0 then true else st.passed_peak,
    count := st.count + 1 }

/-- The `find_impact_point` loop, instrumented: the second component counts
executed update steps and the third is `true` iff the loop exited through the
zero-speed `break`. The first component is exactly the source's return value:
post-apex band crossing (interpolated, height exactly the target height; the
pre-update height plays the source's `prev_N`, the pre-update `U` its
`prev_U`), else ground contact (height exactly 0), else `none`. -/
def fipLoop (C_D C_L wb : ℝ) : ℕ → FipState → Option ImpactResult × ℕ × Bool
  | 0, st => (none, st.count, false)
  | fuel + 1, st =>
    if st.t < max_time then
      if speed2 st.V_u st.V_n = 0 then (none, st.count, true)
      else
        let st1 := fipStep C_D C_L wb st
        if st1.passed_peak = true ∧ targetH ≤ st.N ∧ st1.N ≤ targetH then
          (some { U := st1.U - (if st.N - st1.N ≠ 0 then (targetH - st1.N) / (st.N - st1.N)
                                else 0) * (st1.U - st.U),
                  N := targetH, time := st1.t },
           st.count + 1, false)
        else if st1.N < 0 then
          (some { U := st1.U, N := 0, time := st1.t }, st.count + 1, false)
        else
          fipLoop C_D C_L wb fuel st1
    else (none, st.count, false)

/-- Initial state of the `find_impact_point` loop. -/
def fipInit (ps : ShooterParams) : FipState :=
  { V_u := V_b0 ps * Real.cos ps.O_b, V_n := V_b0 ps * Real.sin ps.O_b,
    U := 0, N := ps.Z_sh, t := 0, passed_peak := false, count := 0 }

/-- The instrumented run of `find_impact_point`. -/
def find_impact_run (ps : ShooterParams) : Option ImpactResult × ℕ × Bool :=
  fipLoop ps.C_D ps.C_L (w_b ps) stdFuel (fipInit ps)

/-- `find_impact_point`. -/
def find_impact_point (ps : ShooterParams) : Option ImpactResult :=
  (find_impact_run ps).1

/-- `np.arange start stop step`: values `start + k * step` for
`k < ⌈(stop - start) / step⌉`, excluding `stop`. -/
def arange (start stop step : ℝ) : List ℝ :=
  (List.range (⌈(stop - start) / step⌉ : ℤ).toNat).map fun (i : ℕ) => start + (i : ℝ) * step

/-- The candidate launch angles swept by `calculate_optimal_angle`
(`np.arange(20, 76, 0.5)` in the source). -/
def angleSweep : List ℝ := arange 20 76 0.5

/-- `math.radians`. -/
def radiansDeg (x : ℝ) : ℝ := x * Real.pi / 180

/-- The dictionary returned by `calculate_optimal_angle`. `err` models the
float `error` field, with `none` standing for `float('inf')`. -/
structure OptResult where
  optimal_angle_deg : ℝ
  landing_height : ℝ
  err : Option ℝ
  velocity_at_target : ℝ
  flight_time : ℝ
  success : Bool
  message : String

/-- `calculate_optimal_angle`: sweep `angleSweep`, override `O_b` for each
candidate, call the distance-stopping simulator, keep the candidate with the
strictly smallest landing-height error (first on ties). -/
def calculate_optimal_angle (ps : ShooterParams) (target_distance : ℝ) : OptResult :=
  let best := angleSweep.foldl
    (fun acc angle_deg =>
      match simulate_to_distance { ps with O_b := radiansDeg angle_deg } target_distance with
      | none => acc
      | some r =>
        let e := |r.height - targetH|
        match acc with
        | none => some (angle_deg, e, r)
        | some (ba, be, br) => if e < be then some (angle_deg, e, r) else some (ba, be, br))
    none
  match best with
  | none =>
    { optimal_angle_deg := 45, landing_height := 0, err := none,
      velocity_at_target := 0, flight_time := 0, success := false,
      message := "Could not find valid trajectory" }
  | some (ba, be, br) =>
    { optimal_angle_deg := ba, landing_height := br.height, err := some be,
      velocity_at_target := br.velocity, flight_time := br.time,
      success := decide (be < 0.15),
      message := if be < 0.15 then "Optimal angle found!"
                 else "Target may not be reachable with current RPM" }

/-- Arithmetic mean of a list (`np.mean`). -/
def mean (l : List ℝ) : ℝ := l.sum / (l.length : ℝ)

/-- The dictionary returned by `calculate_impact_zone`. -/
structure ImpactZone where
  center : ℝ × ℝ × ℝ
  radius : ℝ
  points : List (ℝ × ℝ × ℝ)
  in_target : Bool
  target_probability : ℝ
  max_height : ℝ

/-- `calculate_impact_zone`: 5×5 grid of angle/RPM perturbations, one
`find_impact_point` call per variant, projected with the unperturbed pose;
centroid, max planar spread, scoring statistics. -/
def calculate_impact_zone (ps : ShooterParams)
    (angle_variance_deg rpm_variance_pct : ℝ) : ImpactZone :=
  let angle_variations := linspace (-angle_variance_deg) angle_variance_deg 5
  let rpm_variations := linspace (-rpm_variance_pct) rpm_variance_pct 5
  let impact_points := angle_variations.flatMap fun angle_delta =>
    rpm_variations.filterMap fun rpm_delta =>
      (find_impact_point { ps with O_b := ps.O_b + radiansDeg angle_delta,
                                   w := ps.w * (1 + rpm_delta / 100) }).map fun imp =>
        (ps.P_x + imp.U * Real.cos ps.O_r, ps.P_y + imp.U * Real.sin ps.O_r, imp.N)
  match impact_points with
  | [] =>
    { center := (ps.P_x, ps.P_y, 0), radius := 0, points := [],
      in_target := false, target_probability := 0, max_height := 0 }
  | q :: qs =>
    let pts := q :: qs
    let center := (mean (pts.map (·.1)), mean (pts.map (·.2.1)), mean (pts.map (·.2.2)))
    let distances := pts.map fun r =>
      Real.sqrt ((r.1 - center.1) ^ 2 + (r.2.1 - center.2.1) ^ 2)
    let radius := match distances with
      | [] => 0
      | d :: ds => ds.foldl max d
    let hub_x := L_x + W_H / 2
    let hub_y := L_y / 2
    let th := H_H + H_H2
    let scoring := (pts.filter fun r =>
      decide (|r.2.2 - th| < 0.3 ∧
        Real.sqrt ((r.1 - hub_x) ^ 2 + (r.2.1 - hub_y) ^ 2) < R_2)).length
    let center_dist := Real.sqrt ((center.1 - hub_x) ^ 2 + (center.2.1 - hub_y) ^ 2)
    { center := center, radius := radius, points := pts,
      in_target := decide (center_dist < R_2 ∧ |center.2.2 - th| < 0.3),
      target_probability := (scoring : ℝ) / (pts.length : ℝ) * 100,
      max_height := match pts.map (·.2.2) with
        | [] => 0
        | z :: zs => zs.foldl max z }

/-- Concrete record for claim C1: `w` is chosen so the surface speed is
exactly `0.01`, the launch is vertical and the release height is exactly the
target height band, so many consecutive samples pass the tolerance test. -/
def pC1 : ShooterParams :=
  { P_x := 0, P_y := 0, O_r := 0, w := 0.3 / (Real.pi * R_w), O_b := Real.pi / 2,
    Z_sh := targetH, C_D := 0, C_L := 0, C_roll := 1 }

/-- Concrete record for claims C3 and C4: zero flywheel speed, so the launch
speed is exactly zero. -/
def pC3 : ShooterParams :=
  { P_x := 0, P_y := 0, O_r := 0, w := 0, O_b := 0, Z_sh := 1,
    C_D := 0, C_L := 0, C_roll := 0 }

/-- Concrete record for claim C10: zero flywheel speed and zero release
height. -/
def pC10 : ShooterParams :=
  { P_x := 0, P_y := 0, O_r := 0, w := 0, O_b := 0, Z_sh := 0,
    C_D := 0, C_L := 0, C_roll := 0 }

end

/-! ## General helper lemmas -/

/-- The overwrite-style fold used by the crossing recorders keeps the last
accepted element: it equals `find?` on the reversed list, with the initial
accumulator as fallback. -/
theorem foldl_overwrite_eq (l : List (ℝ × ℝ × ℝ)) :
    ∀ acc : Option (ℝ × ℝ × ℝ),
      l.foldl (fun acc s => if hit s then some s else acc) acc
        = (l.reverse.find? hit).or acc := by
  induction l with
  | nil => intro acc; simp
  | cons s t ih =>
    intro acc
    rw [List.foldl_cons, ih, List.reverse_cons, List.find?_append]
    by_cases h : hit s
    · cases t.reverse.find? hit <;> simp [List.find?, h, Option.or]
    · cases t.reverse.find? hit <;> simp [List.find?, h, Option.or]

/-- `recordCrossing` returns the last sample passing the tolerance test. -/
theorem recordCrossing_eq (l : List (ℝ × ℝ × ℝ)) :
    recordCrossing l = l.reverse.find? hit := by
  rw [recordCrossing, foldl_overwrite_eq]
  cases l.reverse.find? hit <;> simp [Option.or]

/-- Explicit head structure of the sample-time list: `0`, `2/499`, then the
remaining 498 times `2 * (i + 2) / 499`. -/
theorem timeList_eq :
    timeList = 0 :: 2 / 499 ::
      (List.range 498).map (fun (i : ℕ) => 2 * ((i : ℝ) + 2) / 499) := by
  have hr : List.range n_steps = 0 :: 1 :: (List.range 498).map (fun i => i + 2) := by
    rw [show n_steps = 498 + 1 + 1 from rfl, List.range_succ_eq_map,
      List.range_succ_eq_map, List.map_cons, List.map_map]
    refine congrArg _ (congrArg _ ?_)
    refine List.map_congr_left fun i _ => ?_
    simp only [Function.comp_apply]
  rw [timeList, linspace, hr, List.map_cons, List.map_cons, List.map_map]
  have hd : ((n_steps : ℝ)) - 1 = 499 := by norm_num [n_steps]
  have hdur : duration = 2 := rfl
  refine congrArg₂ _ ?_ (congrArg₂ _ ?_ ?_)
  · rw [hd, hdur]; norm_num
  · rw [hd, hdur]; norm_num
  · refine List.map_congr_left fun i _ => ?_
    simp only [Function.comp_apply]
    rw [hd, hdur]
    push_cast
    ring

theorem timeList_length : timeList.length = 500 := by
  rw [timeList, linspace, List.length_map, List.length_range]
  rfl

/-! ## Claim C5 -/

/-- C5 counterexample: the first two sample times are `0` and `2/499`, whose
difference is not the claimed fixed step `dt = duration / n_steps = 0.004`. -/
theorem C5_sample_spacing_counterexample :
    timeList[0]? = some 0 ∧ timeList[1]? = some (2 / 499) ∧
      ((2 : ℝ) / 499 - 0) ≠ dt := by
  refine ⟨?_, ?_, ?_⟩
  · rw [timeList_eq]
    simp
  · rw [timeList_eq]
    simp
  · simp only [dt, duration]
    norm_num [n_steps]

/-- C5 (amended): the sample times form a list of exactly 500 non-decreasing
values spanning `[0, duration]`, with consecutive samples separated by the
fixed spacing `duration / (n_steps - 1) = 2/499` (not `duration / n_steps`). -/
theorem C5_time_axis_structure :
    timeList.length = 500 ∧ timeList.head? = some 0 ∧
      timeList.getLast? = some duration ∧
      List.Chain' (fun a b => a ≤ b) timeList ∧
      List.Chain' (fun a b => b - a = duration / ((n_steps : ℝ) - 1)) timeList := by
  have hd : ((n_steps : ℝ)) - 1 = 499 := by norm_num [n_steps]
  have hdur : duration = 2 := rfl
  have hmap : ∀ (i : ℕ), (0 : ℝ) + (duration - 0) * (i : ℝ) / ((n_steps : ℝ) - 1)
      = 2 * (i : ℝ) / 499 := by
    intro i
    rw [hd, hdur]
    ring
  have hrange : List.range n_steps = List.range (Nat.succ 499) := rfl
  refine ⟨timeList_length, ?_, ?_, ?_, ?_⟩
  · rw [timeList_eq]; rfl
  · have hr2 : List.range n_steps = List.range 499 ++ [499] := by
      rw [show n_steps = 499 + 1 from rfl, List.range_succ]
    rw [timeList, linspace, hr2, List.map_append, List.map_cons, List.map_nil,
      List.getLast?_concat]
    rw [hd, hdur]
    norm_num
  · rw [timeList, linspace, List.chain'_map, hrange, List.chain'_range_succ]
    intro m _
    rw [hmap, hmap]
    push_cast
    have h499 : (0:ℝ) < 499 := by norm_num
    rw [div_le_div_iff₀ h499 h499]
    nlinarith [Nat.cast_nonneg (α := ℝ) m]
  · rw [timeList, linspace, List.chain'_map, hrange, List.chain'_range_succ]
    intro m _
    rw [hmap, hmap, hd, hdur]
    push_cast
    ring

/-! ## Claim C2 -/

theorem angleSweep_eq :
    angleSweep = (List.range 112).map fun (k : ℕ) => 20 + (k : ℝ) * 0.5 := by
  rw [angleSweep, arange]
  have h1 : ((76 : ℝ) - 20) / 0.5 = ((112 : ℕ) : ℝ) := by norm_num
  rw [h1, Int.ceil_natCast]
  rfl

/-- C2: the optimizer's sweep is `np.arange(20, 76, 0.5)`, i.e. the 112
candidates `20.0, 20.5, …, 75.5`; the candidate `75.5` lies outside the
documented range `[20°, 75°]` and the count is not 111. -/
theorem C2_angle_sweep_includes_75_5 :
    angleSweep = ((List.range 112).map fun (k : ℕ) => 20 + (k : ℝ) * 0.5) ∧
      angleSweep.length = 112 ∧ (75.5 : ℝ) ∈ angleSweep ∧
      ¬ ((75.5 : ℝ) ≤ 75) ∧ angleSweep.length ≠ 111 := by
  refine ⟨angleSweep_eq, ?_, ?_, by norm_num, ?_⟩
  · rw [angleSweep_eq]; simp
  · rw [angleSweep_eq]
    refine List.mem_map.mpr ⟨111, List.mem_range.mpr (by norm_num), by norm_num⟩
  · rw [angleSweep_eq]; simp

/-! ## Claim C6 -/

/-- C6 counterexample: for the plane sample `U = -1` at pose `(0, 0, 0)` the
projected point has `X = -1`, `Y = 0`, and the recovery
`sqrt ((X - P_x)² + (Y - P_y)²) = 1 ≠ U`. -/
theorem C6_projection_negative_U_counterexample :
    (calculate_XYZ_fromPoints { U := [-1], N := [5], t := [7] } 0 0 0).X
        = [0 + (-1 : ℝ) * Real.cos 0] ∧
      (0 : ℝ) + (-1 : ℝ) * Real.cos 0 = -1 ∧
      Real.sqrt (((-1 : ℝ) - 0) ^ 2 + ((0 : ℝ) - 0) ^ 2) = 1 ∧
      (1 : ℝ) ≠ -1 := by
  refine ⟨rfl, by norm_num, ?_, by norm_num⟩
  norm_num

/-- C6 (amended): the projector maps a singleton plane sample `(U, N)` at
pose `(P_x, P_y, O_r)` to `X = P_x + U cos O_r`, `Y = P_y + U sin O_r`,
`Z = N`, time passed through; the planar recovery
`sqrt ((X - P_x)² + (Y - P_y)²)` equals `|U|` (which is `U` exactly when
`U ≥ 0`, not for negative `U`). -/
theorem C6_projection_roundtrip_abs (P_x P_y O_r U N t0 : ℝ) :
    calculate_XYZ_fromPoints { U := [U], N := [N], t := [t0] } P_x P_y O_r
        = { X := [P_x + U * Real.cos O_r], Y := [P_y + U * Real.sin O_r],
            Z := [N], t := [t0] } ∧
      Real.sqrt ((P_x + U * Real.cos O_r - P_x) ^ 2
          + (P_y + U * Real.sin O_r - P_y) ^ 2) = |U| := by
  constructor
  · rfl
  · have h : (P_x + U * Real.cos O_r - P_x) ^ 2 + (P_y + U * Real.sin O_r - P_y) ^ 2
        = U ^ 2 * (Real.sin O_r ^ 2 + Real.cos O_r ^ 2) := by ring
    rw [h, Real.sin_sq_add_cos_sq, mul_one, Real.sqrt_sq_eq_abs]

/-! ## Claim C1 -/

theorem targetH_val : targetH = 1.9669 := by
  simp only [targetH, H_H, H_H2, H_Shoot]
  norm_num

theorem pC1_Vn0 : V_n0 pC1 = 0.01 := by
  have hπ : Real.pi ≠ 0 := Real.pi_ne_zero
  have hR : R_w ≠ 0 := by simp only [R_w]; norm_num
  have h1 : V_n0 pC1
      = 0.3 / (Real.pi * R_w) / 60 * (2 * Real.pi) * R_w * 1 * Real.sin (Real.pi / 2) := rfl
  rw [h1, Real.sin_pi_div_two]
  field_simp
  ring

theorem idealN_pC1_zero : idealN pC1 0 = targetH := by
  simp only [idealN]
  have hz : pC1.Z_sh = targetH := rfl
  rw [hz]
  rw [targetH_val]
  norm_num

theorem hit_pC1_zero : hit (idealU pC1 0, idealN pC1 0, 0) = true := by
  rw [hit, decide_eq_true_eq]
  simp only [idealN_pC1_zero]
  norm_num

theorem idealN_pC1_t1 :
    idealN pC1 (2 / 499)
      = targetH + (0.01 * (2 / 499) - 0.5 * g * (2 / 499) ^ 2) := by
  simp only [idealN]
  have hz : pC1.Z_sh = targetH := rfl
  rw [hz, pC1_Vn0]
  have hcond : ¬ (targetH + 0.01 * ((2 : ℝ) / 499) - 0.5 * g * ((2 : ℝ) / 499) ^ 2 < 0) := by
    rw [targetH_val]
    simp only [g]
    norm_num
  rw [if_neg hcond]
  ring

theorem hit_pC1_t1 : hit (idealU pC1 (2 / 499), idealN pC1 (2 / 499), 2 / 499) = true := by
  rw [hit, decide_eq_true_eq]
  simp only [idealN_pC1_t1]
  rw [add_sub_cancel_left]
  simp only [g]
  rw [abs_lt]
  constructor <;> norm_num

theorem idealSamples_pC1_eq :
    idealSamples pC1 = (idealU pC1 0, idealN pC1 0, 0) ::
      (idealU pC1 (2 / 499), idealN pC1 (2 / 499), 2 / 499) ::
      ((List.range 498).map (fun (i : ℕ) => 2 * ((i : ℝ) + 2) / 499)).map
        (fun t => (idealU pC1 t, idealN pC1 t, t)) := by
  rw [idealSamples, timeList_eq, List.map_cons, List.map_cons]

theorem idealSamples_pC1_tail_t_pos :
    ∀ s ∈ ((List.range 498).map (fun (i : ℕ) => 2 * ((i : ℝ) + 2) / 499)).map
        (fun t => (idealU pC1 t, idealN pC1 t, t)),
      0 < s.2.2 := by
  intro s hs
  obtain ⟨t, ht, rfl⟩ := List.mem_map.mp hs
  obtain ⟨i, _, rfl⟩ := List.mem_map.mp ht
  have hi : (0 : ℝ) ≤ (i : ℝ) := Nat.cast_nonneg i
  show (0 : ℝ) < 2 * ((i : ℝ) + 2) / 499
  positivity

set_option maxRecDepth 10000 in
/-- C1 counterexample: for `pC1` the first in-tolerance sample of the ideal
track is the launch sample `(0, targetH, 0)` (time `0`), yet the recorded
crossing point differs from it: the recorder keeps the last in-tolerance
sample, whose time component is positive. -/
theorem C1_first_sample_counterexample :
    (idealSamples pC1).find? hit = some (idealU pC1 0, idealN pC1 0, 0) ∧
      (idealU pC1 0, idealN pC1 0, (0 : ℝ)) = ((0 : ℝ), targetH, (0 : ℝ)) ∧
      (calculate_simulation pC1).ideal_point ≠ (idealSamples pC1).find? hit := by
  have hfind : (idealSamples pC1).find? hit = some (idealU pC1 0, idealN pC1 0, 0) := by
    rw [idealSamples_pC1_eq]
    exact List.find?_cons_of_pos _ hit_pC1_zero
  refine ⟨hfind, ?_, ?_⟩
  · rw [idealN_pC1_zero]
    simp [idealU]
  · rw [hfind]
    have hip : (calculate_simulation pC1).ideal_point
        = recordCrossing (idealSamples pC1) := rfl
    rw [hip, recordCrossing_eq, idealSamples_pC1_eq, List.reverse_cons, List.reverse_cons,
      List.find?_append, List.find?_append]
    have h1 : List.find? hit [(idealU pC1 (2 / 499), idealN pC1 (2 / 499), 2 / 499)]
        = some (idealU pC1 (2 / 499), idealN pC1 (2 / 499), 2 / 499) :=
      List.find?_cons_of_pos _ hit_pC1_t1
    rw [h1]
    rcases hM : (((List.range 498).map (fun (i : ℕ) => 2 * ((i : ℝ) + 2) / 499)).map
        (fun t => (idealU pC1 t, idealN pC1 t, t))).reverse.find? hit with _ | y
    · simp only [hM, Option.none_or, Option.or_some]
      intro h
      have h2 := congrArg (fun q : ℝ × ℝ × ℝ => q.2.2) (Option.some.inj h)
      norm_num at h2
    · simp only [hM, Option.or_some]
      intro h
      have hy := Option.some.inj h
      have hmem := List.mem_of_find?_eq_some hM
      rw [List.mem_reverse] at hmem
      have hpos := idealSamples_pC1_tail_t_pos y hmem
      rw [hy] at hpos
      simp at hpos

set_option maxRecDepth 10000 in
/-- C1 (amended): for both tracks the recorded crossing point is the LAST
sample passing the tolerance test `|N - targetH| < 0.01` (each passing sample
overwrites the previous candidate); when no sample passes, no crossing point
is recorded (both facts are packaged as `find?` on the reversed sample
list). -/
theorem C1_crossing_is_last_within_tolerance (ps : ShooterParams) :
    (calculate_simulation ps).ideal_point = (idealSamples ps).reverse.find? hit ∧
      (calculate_simulation ps).frIdealPoint = (frSamples ps).reverse.find? hit :=
  ⟨recordCrossing_eq _, recordCrossing_eq _⟩

/-! ## Claim C7 -/

theorem idealN_nonneg (ps : ShooterParams) (t : ℝ) : 0 ≤ idealN ps t := by
  simp only [idealN]
  split_ifs with h
  · exact le_rfl
  · exact le_of_not_lt h

theorem frStep_N_nonneg (ps : ShooterParams) (st : FrState) : 0 ≤ (frStep ps st).N := by
  simp only [frStep]
  split_ifs <;>
    first
      | exact le_rfl
      | exact le_of_not_lt (by assumption)

theorem frLoop_forall_nonneg (ps : ShooterParams) :
    ∀ (ts : List ℝ) (st : FrState),
      (frLoop ps st ts).Forall (fun s => 0 ≤ s.2.1) := by
  intro ts
  induction ts with
  | nil => intro st; simp [frLoop]
  | cons t ts ih =>
    intro st
    simp only [frLoop, List.forall_cons]
    exact ⟨frStep_N_nonneg ps st, ih (frStep ps st)⟩

theorem forall_nonneg_map_snd {l : List (ℝ × ℝ × ℝ)}
    (h : l.Forall fun s => 0 ≤ s.2.1) :
    (l.map (·.2.1)).Forall fun x => (0 : ℝ) ≤ x := by
  rw [List.forall_iff_forall_mem] at h ⊢
  intro x hx
  obtain ⟨s, hs, rfl⟩ := List.mem_map.mp hx
  exact h s hs

theorem forall_nonneg_zip_snd {Us Ns : List ℝ}
    (h : Ns.Forall fun x => (0 : ℝ) ≤ x) :
    ((Us.zip Ns).map (fun q => q.2)).Forall fun x => (0 : ℝ) ≤ x := by
  rw [List.forall_iff_forall_mem] at h ⊢
  intro x hx
  obtain ⟨⟨u, n⟩, hq, rfl⟩ := List.mem_map.mp hx
  exact h n (List.of_mem_zip hq).2

set_option maxRecDepth 10000 in
/-- C7: no stored sample of any sequence returned by `calculate_simulation`
(ideal 2D heights, drag-affected 2D heights, and the Z components of both 3D
projections) is below zero. -/
theorem C7_ground_clamp (ps : ShooterParams) :
    ((calculate_simulation ps).iPoints.N).Forall (fun x => 0 ≤ x) ∧
      ((calculate_simulation ps).frPoints.N).Forall (fun x => 0 ≤ x) ∧
      ((calculate_simulation ps).iPoints_xyz.Z).Forall (fun x => 0 ≤ x) ∧
      ((calculate_simulation ps).frPoints_xyz.Z).Forall (fun x => 0 ≤ x) := by
  have hiN : ((idealSamples ps).map (·.2.1)).Forall (fun x => (0 : ℝ) ≤ x) := by
    apply forall_nonneg_map_snd
    rw [List.forall_iff_forall_mem]
    intro s hs
    obtain ⟨t, _, rfl⟩ := List.mem_map.mp hs
    exact idealN_nonneg ps t
  have hfN : ((frSamples ps).map (·.2.1)).Forall (fun x => (0 : ℝ) ≤ x) :=
    forall_nonneg_map_snd (frLoop_forall_nonneg ps timeList (frInit ps))
  exact ⟨hiN, hfN, forall_nonneg_zip_snd hiN, forall_nonneg_zip_snd hfN⟩

/-! ## Claim C10 -/

theorem frLoop_getElem? (ps : ShooterParams) :
    ∀ (ts : List ℝ) (st : FrState) (k : ℕ),
      (frLoop ps st ts)[k]? = ts[k]?.map fun t =>
        (((frStep ps)^[k + 1] st).U, ((frStep ps)^[k + 1] st).N, t) := by
  intro ts
  induction ts with
  | nil => intro st k; simp [frLoop]
  | cons t ts ih =>
    intro st k
    cases k with
    | zero =>
      simp [frLoop, Function.iterate_one]
    | succ k =>
      simp only [frLoop, List.getElem?_cons_succ]
      have h2 : ∀ z : FrState, (frStep ps)^[k + 1 + 1] z = (frStep ps)^[k + 1] (frStep ps z) :=
        fun z => Function.iterate_succ_apply (frStep ps) (k + 1) z
      rw [ih (frStep ps st) k]
      simp only [h2]

set_option maxRecDepth 10000 in
/-- C10 (amended): the drag-affected sample stored at time index `k` is the
state after `k + 1` forward-Euler updates (so the first stored sample already
includes one update); in degenerate cases the updated-and-clamped values can
still coincide with the launch values. The ideal track's first sample is
`(0, Z_sh, 0)` with the height clamped to zero from below. -/
theorem C10_drag_sample_indexing (ps : ShooterParams) (k : ℕ) :
    (frSamples ps)[k]? = timeList[k]?.map (fun t =>
        (((frStep ps)^[k + 1] (frInit ps)).U, ((frStep ps)^[k + 1] (frInit ps)).N, t)) ∧
      (idealSamples ps)[0]? = some (0, if ps.Z_sh < 0 then 0 else ps.Z_sh, 0) := by
  constructor
  · exact frLoop_getElem? ps timeList (frInit ps) k
  · rw [idealSamples, List.getElem?_map, timeList_eq]
    have h1 : idealU ps 0 = 0 := by simp [idealU]
    have h2 : idealN ps 0 = if ps.Z_sh < 0 then 0 else ps.Z_sh := by
      simp only [idealN]
      norm_num
    simp [h1, h2]

theorem pC10_frInit : frInit pC10 = ⟨0, 0, 0, 0⟩ := by
  simp only [frInit, V_u0, V_n0, V_b0, V_s, pC10, FrState.mk.injEq]
  norm_num

theorem frStep_pC10 : frStep pC10 ⟨0, 0, 0, 0⟩ = ⟨0, -0.03924, 0, 0⟩ := by
  have hV : speed2 (0 : ℝ) 0 = 0 := by simp [speed2]
  have hdt : dt = 2 / 500 := by
    simp [dt, duration, n_steps]
  simp only [frStep, hV, FrState.mk.injEq]
  norm_num [hdt, g]

set_option maxRecDepth 10000 in
/-- C10 counterexample: for `pC10` (zero flywheel speed, zero release height)
the very first stored drag-track sample is `(0, 0, 0)`, which is exactly the
launch state `(U, N) = (0, Z_sh)` at the first sample time — so the claim
that the launch state is never stored in the drag-affected sequence fails. -/
theorem C10_launch_state_stored_counterexample :
    (frSamples pC10).head? = some (0, pC10.Z_sh, 0) ∧ pC10.Z_sh = 0 := by
  constructor
  · rw [frSamples, timeList_eq, pC10_frInit]
    simp only [frLoop, List.head?_cons, frStep_pC10]
    rfl
  · rfl

/-! ## Claim C9 -/

set_option maxRecDepth 10000 in
/-- C9: in the `simulate_to_distance` loop, when a single update step makes
the horizontal distance reach the target while the updated height is
simultaneously negative, the distance check takes precedence: the returned
record carries the raw post-update height (negative, never clamped to zero)
together with the pre-update speed. -/
theorem C9_distance_check_precedence (C_D C_L wb d : ℝ) (fuel : ℕ) (st : EvState)
    (ht : st.t < max_time) (hV : speed2 st.V_u st.V_n ≠ 0)
    (hU : d ≤ (evStep C_D C_L wb st).U) (hN : (evStep C_D C_L wb st).N < 0) :
    stdLoop C_D C_L wb d (fuel + 1) st
      = some { height := (evStep C_D C_L wb st).N, velocity := speed2 st.V_u st.V_n,
               time := (evStep C_D C_L wb st).t, V_u := (evStep C_D C_L wb st).V_u,
               V_n := (evStep C_D C_L wb st).V_n } ∧
      (evStep C_D C_L wb st).N < 0 := by
  refine ⟨?_, hN⟩
  simp only [stdLoop]
  rw [if_pos ht, if_neg hV, if_pos hU]

theorem evStep_eval :
    evStep 0 0 0 ⟨1000, 0, 0, 0, 0⟩ = ⟨1000, -0.01962, 2, -0.00003924, 0.002⟩ := by
  simp only [evStep, f_drag, f_lift, EvState.mk.injEq]
  norm_num [sim_dt, g]

set_option maxRecDepth 10000 in
/-- Witness for C9 at a concrete state: a fast horizontal state just above
the ground crosses distance 1 on the step that also takes its height
negative, and the returned height is that negative value. -/
theorem C9_distance_check_precedence_witness :
    ((⟨1000, 0, 0, 0, 0⟩ : EvState).t < max_time) ∧
      speed2 (1000 : ℝ) 0 ≠ 0 ∧
      (1 : ℝ) ≤ (evStep 0 0 0 ⟨1000, 0, 0, 0, 0⟩).U ∧
      (evStep 0 0 0 ⟨1000, 0, 0, 0, 0⟩).N < 0 ∧
      stdLoop 0 0 0 1 (0 + 1) ⟨1000, 0, 0, 0, 0⟩
        = some { height := (evStep 0 0 0 ⟨1000, 0, 0, 0, 0⟩).N,
                 velocity := speed2 (1000 : ℝ) 0,
                 time := (evStep 0 0 0 ⟨1000, 0, 0, 0, 0⟩).t,
                 V_u := (evStep 0 0 0 ⟨1000, 0, 0, 0, 0⟩).V_u,
                 V_n := (evStep 0 0 0 ⟨1000, 0, 0, 0, 0⟩).V_n } := by
  have ht : ((⟨1000, 0, 0, 0, 0⟩ : EvState)).t < max_time := by
    show (0 : ℝ) < max_time
    simp only [max_time]
    norm_num
  have hV : speed2 (1000 : ℝ) 0 ≠ 0 := by
    simp only [speed2]
    positivity
  have hU : (1 : ℝ) ≤ (evStep 0 0 0 ⟨1000, 0, 0, 0, 0⟩).U := by
    rw [evStep_eval]
    norm_num
  have hN : (evStep 0 0 0 ⟨1000, 0, 0, 0, 0⟩).N < 0 := by
    rw [evStep_eval]
    norm_num
  exact ⟨ht, hV, hU, hN, (C9_distance_check_precedence 0 0 0 1 0 _ ht hV hU hN).1⟩

/-! ## Claim C3 -/

theorem fipStep_count (C_D C_L wb : ℝ) (st : FipState) :
    (fipStep C_D C_L wb st).count = st.count + 1 := rfl

theorem fipStep_t (C_D C_L wb : ℝ) (st : FipState) :
    (fipStep C_D C_L wb st).t = st.t + sim_dt := rfl

theorem fipLoop_none_or_classified (C_D C_L wb : ℝ) :
    ∀ (fuel : ℕ) (st : FipState),
      st.count + fuel = 1501 → st.t = (st.count : ℝ) * sim_dt → st.count ≤ 1500 →
      (match (fipLoop C_D C_L wb fuel st).1 with
        | some r => r.N = targetH ∨ r.N = 0
        | none => (fipLoop C_D C_L wb fuel st).2.2 = true
            ∨ (fipLoop C_D C_L wb fuel st).2.1 = 1500) := by
  intro fuel
  induction fuel with
  | zero =>
    intro st h1 _ h3
    exfalso
    omega
  | succ fuel ih =>
    intro st h1 h2 h3
    by_cases htime : st.t < max_time
    · by_cases hV : speed2 st.V_u st.V_n = 0
      · simp only [fipLoop]
        rw [if_pos htime, if_pos hV]
        exact Or.inl rfl
      · have hcount : st.count ≤ 1499 := by
          by_contra hc
          push_neg at hc
          have hc2 : (1500 : ℝ) ≤ (st.count : ℝ) := by exact_mod_cast hc
          rw [h2] at htime
          simp only [sim_dt, max_time] at htime
          nlinarith
        by_cases hcross : (fipStep C_D C_L wb st).passed_peak = true ∧
            targetH ≤ st.N ∧ (fipStep C_D C_L wb st).N ≤ targetH
        · simp only [fipLoop]
          rw [if_pos htime, if_neg hV, if_pos hcross]
          exact Or.inl rfl
        · by_cases hground : (fipStep C_D C_L wb st).N < 0
          · simp only [fipLoop]
            rw [if_pos htime, if_neg hV, if_neg hcross, if_pos hground]
            exact Or.inr rfl
          · have hrec : fipLoop C_D C_L wb (fuel + 1) st
                = fipLoop C_D C_L wb fuel (fipStep C_D C_L wb st) := by
              simp only [fipLoop]
              rw [if_pos htime, if_neg hV, if_neg hcross, if_neg hground]
            rw [hrec]
            exact ih (fipStep C_D C_L wb st)
              (by rw [fipStep_count]; omega)
              (by rw [fipStep_t, fipStep_count, h2]; push_cast; ring)
              (by rw [fipStep_count]; omega)
    · simp only [fipLoop]
      rw [if_neg htime]
      refine Or.inr ?_
      show st.count = 1500
      have h4 : (1500 : ℝ) ≤ (st.count : ℝ) := by
        rw [h2] at htime
        simp only [sim_dt, max_time] at htime
        push_neg at htime
        nlinarith
      have h5 : 1500 ≤ st.count := by exact_mod_cast h4
      omega

set_option maxRecDepth 10000 in
/-- C3 (amended): every result `find_impact_point` returns carries height
exactly the target band (interpolated crossing) or exactly `0` (ground
contact); `none` is returned only when the simulated-time budget is exhausted
(all 1500 steps executed) or when the instantaneous speed is exactly zero
(the loop's zero-speed break), with neither a crossing nor a ground
contact. -/
theorem C3_height_stop_result_classification (ps : ShooterParams) :
    (match find_impact_point ps with
      | some r => r.N = targetH ∨ r.N = 0
      | none => (find_impact_run ps).2.2 = true ∨ (find_impact_run ps).2.1 = 1500) := by
  have h := fipLoop_none_or_classified ps.C_D ps.C_L (w_b ps) stdFuel (fipInit ps)
    (by norm_num [fipInit, stdFuel])
    (by show (0 : ℝ) = ((0 : ℕ) : ℝ) * sim_dt; norm_num)
    (by norm_num [fipInit])
  exact h

theorem fipInit_pC3 : fipInit pC3 = ⟨0, 0, 0, 1, 0, false, 0⟩ := by
  simp only [fipInit, V_b0, V_s, pC3, FipState.mk.injEq]
  norm_num

/-- One-step behaviour of the `find_impact_point` loop at zero speed. -/
theorem fipLoop_zero_speed (C_D C_L wb : ℝ) (fuel : ℕ) (st : FipState)
    (ht : st.t < max_time) (h : speed2 st.V_u st.V_n = 0) :
    fipLoop C_D C_L wb (fuel + 1) st = (none, st.count, true) := by
  simp only [fipLoop]
  rw [if_pos ht, if_pos h]

/-- One-step behaviour of the `simulate_to_distance` loop at zero speed. -/
theorem stdLoop_zero_speed (C_D C_L wb d : ℝ) (fuel : ℕ) (st : EvState)
    (ht : st.t < max_time) (h : speed2 st.V_u st.V_n = 0) :
    stdLoop C_D C_L wb d (fuel + 1) st = none := by
  simp only [stdLoop]
  rw [if_pos ht, if_pos h]

/-- One-step behaviour of the claimed-variant loop when the target distance
is reached on the first update. -/
theorem stdLoopClaimed_step_reaches (C_D C_L wb d : ℝ) (fuel : ℕ) (st : EvState)
    (ht : st.t < max_time) (hU : d ≤ (evStepZeroGuard C_D C_L wb st).U) :
    stdLoopClaimed C_D C_L wb d (fuel + 1) st
      = some { height := (evStepZeroGuard C_D C_L wb st).N,
               velocity := speed2 st.V_u st.V_n,
               time := (evStepZeroGuard C_D C_L wb st).t,
               V_u := (evStepZeroGuard C_D C_L wb st).V_u,
               V_n := (evStepZeroGuard C_D C_L wb st).V_n } := by
  simp only [stdLoopClaimed]
  rw [if_pos ht, if_pos hU]

set_option maxRecDepth 10000 in
/-- C3 counterexample: with zero launch speed (`pC3`, `w = 0`)
`find_impact_point` returns `none` through the zero-speed break after 0 of
the 1500 budgeted steps — the simulated-time budget is not exhausted. -/
theorem C3_zero_speed_none_counterexample :
    find_impact_point pC3 = none ∧ (find_impact_run pC3).2.1 = 0 ∧
      (find_impact_run pC3).2.2 = true ∧ (find_impact_run pC3).2.1 ≠ 1500 := by
  have hsp : speed2 (0 : ℝ) 0 = 0 := by
    simp only [speed2]
    norm_num [Real.sqrt_zero]
  have hrun : find_impact_run pC3 = (none, 0, true) := by
    show fipLoop pC3.C_D pC3.C_L (w_b pC3) stdFuel (fipInit pC3) = (none, 0, true)
    rw [fipInit_pC3]
    exact fipLoop_zero_speed _ _ _ 1500 _
      (by show (0 : ℝ) < max_time; norm_num [max_time]) hsp
  refine ⟨?_, ?_, ?_, ?_⟩
  · show (find_impact_run pC3).1 = none
    rw [hrun]
  · rw [hrun]
  · rw [hrun]
  · rw [hrun]
    norm_num

/-! ## Claim C4 -/

set_option maxRecDepth 10000 in
/-- C4 (amended): only the drag-affected display integrator defines
drag/lift/heading as zero on a zero-speed step and proceeds (reducing the
step to the gravity-only update shown); the two event-stopping simulators
instead exit their loop at zero speed and return `none` (the height-stopping
one through its instrumented zero-speed flag). No integrator fails. -/
theorem C4_zero_speed_handling :
    (∀ (ps : ShooterParams) (st : FrState), speed2 st.V_u st.V_n = 0 →
        frStep ps st = { V_u := st.V_u, V_n := st.V_n - dt * g, U := st.U + st.V_u * dt,
                         N := if st.N + (st.V_n - dt * g) * dt < 0 then 0
                              else st.N + (st.V_n - dt * g) * dt }) ∧
      (∀ (C_D C_L wb d : ℝ) (fuel : ℕ) (st : EvState),
        st.t < max_time → speed2 st.V_u st.V_n = 0 →
          stdLoop C_D C_L wb d (fuel + 1) st = none) ∧
      (∀ (C_D C_L wb : ℝ) (fuel : ℕ) (st : FipState),
        st.t < max_time → speed2 st.V_u st.V_n = 0 →
          fipLoop C_D C_L wb (fuel + 1) st = (none, st.count, true)) := by
  refine ⟨?_, ?_, ?_⟩
  · intro ps st h
    simp only [frStep]
    rw [if_pos h]
    dsimp only
    have hv : st.V_n + dt * (Real.sin (0 : ℝ) * 0 + Real.sin ((0 : ℝ) + Real.pi / 2) * 0 - g)
        = st.V_n - dt * g := by ring
    have hu : st.V_u + dt * (Real.cos (0 : ℝ) * 0 + Real.cos ((0 : ℝ) + Real.pi / 2) * 0)
        = st.V_u := by ring
    rw [hv, hu]
  · intro C_D C_L wb d fuel st ht h
    exact stdLoop_zero_speed C_D C_L wb d fuel st ht h
  · intro C_D C_L wb fuel st ht h
    exact fipLoop_zero_speed C_D C_L wb fuel st ht h

theorem evInit_pC3 : evInit pC3 = ⟨0, 0, 0, 1, 0⟩ := by
  simp only [evInit, V_b0, V_s, pC3, EvState.mk.injEq]
  norm_num

set_option maxRecDepth 10000 in
/-- C4 counterexample: with zero launch speed the real `simulate_to_distance`
exits its loop immediately with `none`, while the variant that follows the
claim's wording (zero contributions, proceed) performs the zero-speed step
and, with target distance 0, returns a result. -/
theorem C4_event_sim_zero_speed_counterexample :
    simulate_to_distance pC3 0 = none ∧
      simulate_to_distance_claimed pC3 0 ≠ none := by
  have hsp : speed2 (0 : ℝ) 0 = 0 := by
    simp only [speed2]
    norm_num [Real.sqrt_zero]
  have ht0 : ((⟨0, 0, 0, 1, 0⟩ : EvState)).t < max_time := by
    show (0 : ℝ) < max_time
    norm_num [max_time]
  constructor
  · show stdLoop pC3.C_D pC3.C_L (w_b pC3) 0 stdFuel (evInit pC3) = none
    rw [evInit_pC3]
    exact stdLoop_zero_speed _ _ _ 0 1500 _ ht0 hsp
  · show stdLoopClaimed pC3.C_D pC3.C_L (w_b pC3) 0 stdFuel (evInit pC3) ≠ none
    rw [evInit_pC3]
    have hU : (evStepZeroGuard pC3.C_D pC3.C_L (w_b pC3) ⟨0, 0, 0, 1, 0⟩).U = 0 := by
      simp only [evStepZeroGuard]
      rw [if_pos hsp]
      dsimp only
      ring
    rw [show stdFuel = 1500 + 1 from rfl,
      stdLoopClaimed_step_reaches pC3.C_D pC3.C_L (w_b pC3) 0 1500 ⟨0, 0, 0, 1, 0⟩ ht0
        (by rw [hU])]
    simp

set_option maxRecDepth 10000 in
/-- Witness for C4 at concrete zero-speed states. -/
theorem C4_zero_speed_handling_witness :
    speed2 (0 : ℝ) 0 = 0 ∧ ((0 : ℝ) < max_time) ∧
      frStep pC10 ⟨0, 0, 0, 0⟩ = { V_u := (0 : ℝ), V_n := (0 : ℝ) - dt * g,
                                   U := (0 : ℝ) + 0 * dt,
                                   N := if (0 : ℝ) + ((0 : ℝ) - dt * g) * dt < 0 then 0
                                        else (0 : ℝ) + ((0 : ℝ) - dt * g) * dt } ∧
      stdLoop 0 0 0 0 (0 + 1) ⟨0, 0, 0, 1, 0⟩ = none ∧
      fipLoop 0 0 0 (0 + 1) ⟨0, 0, 0, 1, 0, false, 0⟩ = (none, 0, true) := by
  have hsp : speed2 (0 : ℝ) 0 = 0 := by
    simp only [speed2]
    norm_num [Real.sqrt_zero]
  have ht : (0 : ℝ) < max_time := by norm_num [max_time]
  exact ⟨hsp, ht, C4_zero_speed_handling.1 pC10 ⟨0, 0, 0, 0⟩ hsp,
    C4_zero_speed_handling.2.1 0 0 0 0 0 ⟨0, 0, 0, 1, 0⟩ ht hsp,
    C4_zero_speed_handling.2.2 0 0 0 0 ⟨0, 0, 0, 1, 0, false, 0⟩ ht hsp⟩

/-! ## Claim C8 -/

theorem linspace_zero_five : linspace (-(0 : ℝ)) 0 5 = List.replicate 5 (0 : ℝ) := by
  rw [linspace]
  rw [show List.range 5 = [0, 1, 2, 3, 4] from rfl]
  simp only [List.map_cons, List.map_nil]
  norm_num
  rfl

theorem tp_zero_eq (ps : ShooterParams) :
    { ps with O_b := ps.O_b + radiansDeg 0, w := ps.w * (1 + 0 / 100) } = ps := by
  cases ps
  simp only [radiansDeg, ShooterParams.mk.injEq]
  norm_num

theorem filterMap_replicate_none {α β : Type} {m : ℕ} {a : α} {f : α → Option β}
    (hf : f a = none) : (List.replicate m a).filterMap f = [] := by
  induction m with
  | zero => rfl
  | succ m ih =>
    simp only [List.replicate_succ, List.filterMap_cons, hf, ih]

theorem filterMap_replicate_some {α β : Type} {m : ℕ} {a : α} {f : α → Option β} {b : β}
    (hf : f a = some b) : (List.replicate m a).filterMap f = List.replicate m b := by
  induction m with
  | zero => rfl
  | succ m ih =>
    simp only [List.replicate_succ, List.filterMap_cons, hf, ih]

theorem flatMap_replicate {α β : Type} (m : ℕ) (a : α) (f : α → List β) :
    (List.replicate m a).flatMap f = (List.replicate m (f a)).flatten := by
  induction m with
  | zero => rfl
  | succ m ih =>
    simp only [List.replicate_succ, List.flatMap_cons, List.flatten_cons, ih]

theorem flatten_replicate_nil {β : Type} (m : ℕ) :
    (List.replicate m ([] : List β)).flatten = [] := by
  induction m with
  | zero => rfl
  | succ m ih =>
    simp only [List.replicate_succ, List.flatten_cons, ih, List.nil_append]

theorem flatten_replicate_replicate {β : Type} (m k : ℕ) (x : β) :
    (List.replicate m (List.replicate k x)).flatten = List.replicate (m * k) x := by
  induction m with
  | zero => simp
  | succ m ih =>
    simp only [List.replicate_succ, List.flatten_cons, ih, Nat.succ_mul, Nat.add_comm]
    rw [← List.replicate_add]

theorem mean_replicate (n : ℕ) (hn : n ≠ 0) (x : ℝ) :
    mean (List.replicate n x) = x := by
  rw [mean, List.sum_replicate, List.length_replicate, nsmul_eq_mul]
  have hn2 : (n : ℝ) ≠ 0 := Nat.cast_ne_zero.mpr hn
  field_simp

theorem foldl_max_replicate : ∀ n : ℕ, (List.replicate n (0 : ℝ)).foldl max 0 = 0 := by
  intro n
  induction n with
  | zero => rfl
  | succ n ih =>
    rw [List.replicate_succ, List.foldl_cons, max_self]
    exact ih

theorem filterMap_replicate {α β : Type} (m : ℕ) (a : α) (f : α → Option β) :
    (List.replicate m a).filterMap f
      = match f a with
        | none => []
        | some b => List.replicate m b := by
  cases hf : f a with
  | none => exact filterMap_replicate_none hf
  | some b => exact filterMap_replicate_some hf

set_option maxRecDepth 10000 in
/-- C8: with zero angle variance and zero RPM variance every one of the 25
grid variants equals the base parameter record, so the collected impact
points are 25 copies of the same projected point (or none at all), and the
returned zone radius is exactly 0. -/
theorem C8_zero_variance_degeneracy (ps : ShooterParams) :
    (calculate_impact_zone ps 0 0).radius = 0 ∧
      (calculate_impact_zone ps 0 0).points =
        (match find_impact_point ps with
          | none => []
          | some imp =>
              List.replicate 25
                (ps.P_x + imp.U * Real.cos ps.O_r, ps.P_y + imp.U * Real.sin ps.O_r, imp.N)) := by
  rcases hfip : find_impact_point ps with _ | imp
  · have h0 : (find_impact_point
          { ps with O_b := ps.O_b + radiansDeg 0, w := ps.w * (1 + 0 / 100) }).map
          (fun imp => (ps.P_x + imp.U * Real.cos ps.O_r,
            ps.P_y + imp.U * Real.sin ps.O_r, imp.N)) = none := by
      rw [tp_zero_eq, hfip]
      rfl
    constructor
    · simp only [calculate_impact_zone, linspace_zero_five, flatMap_replicate,
        filterMap_replicate]
      rw [h0]
      simp only [flatten_replicate_nil]
    · simp only [calculate_impact_zone, linspace_zero_five, flatMap_replicate,
        filterMap_replicate]
      rw [h0]
      simp only [flatten_replicate_nil]
  · have h0 : (find_impact_point
          { ps with O_b := ps.O_b + radiansDeg 0, w := ps.w * (1 + 0 / 100) }).map
          (fun imp => (ps.P_x + imp.U * Real.cos ps.O_r,
            ps.P_y + imp.U * Real.sin ps.O_r, imp.N))
        = some (ps.P_x + imp.U * Real.cos ps.O_r, ps.P_y + imp.U * Real.sin ps.O_r, imp.N) := by
      rw [tp_zero_eq, hfip]
      rfl
    constructor
    · simp only [calculate_impact_zone, linspace_zero_five, flatMap_replicate,
        filterMap_replicate]
      rw [h0]
      simp only [flatten_replicate_replicate]
      rw [show (5 * 5 : ℕ) = 24 + 1 from rfl, List.replicate_succ]
      dsimp only
      have hcx : mean (((ps.P_x + imp.U * Real.cos ps.O_r, ps.P_y + imp.U * Real.sin ps.O_r,
            imp.N) :: List.replicate 24 (ps.P_x + imp.U * Real.cos ps.O_r,
            ps.P_y + imp.U * Real.sin ps.O_r, imp.N)).map (fun r => r.1))
          = ps.P_x + imp.U * Real.cos ps.O_r := by
        rw [List.map_cons, List.map_replicate, ← List.replicate_succ]
        exact mean_replicate 25 (by norm_num) _
      have hcy : mean (((ps.P_x + imp.U * Real.cos ps.O_r, ps.P_y + imp.U * Real.sin ps.O_r,
            imp.N) :: List.replicate 24 (ps.P_x + imp.U * Real.cos ps.O_r,
            ps.P_y + imp.U * Real.sin ps.O_r, imp.N)).map (fun r => r.2.1))
          = ps.P_y + imp.U * Real.sin ps.O_r := by
        rw [List.map_cons, List.map_replicate, ← List.replicate_succ]
        exact mean_replicate 25 (by norm_num) _
      rw [hcx, hcy]
      rw [List.map_cons, List.map_replicate]
      dsimp only
      have hd0 : Real.sqrt ((ps.P_x + imp.U * Real.cos ps.O_r
            - (ps.P_x + imp.U * Real.cos ps.O_r)) ^ 2
          + (ps.P_y + imp.U * Real.sin ps.O_r
            - (ps.P_y + imp.U * Real.sin ps.O_r)) ^ 2) = 0 := by
        simp
      rw [hd0]
      exact foldl_max_replicate 24
    · simp only [calculate_impact_zone, linspace_zero_five, flatMap_replicate,
        filterMap_replicate]
      rw [h0]
      simp only [flatten_replicate_replicate]
      rw [show (5 * 5 : ℕ) = 24 + 1 from rfl, List.replicate_succ]

end FrcShooter
